import Mathlib

/-!
Verification development for the LiteWebAgent extraction and persistence core.

Shallow embedding of:
  - src/backend/api/litewebagent/tools/webscraping.py
    (webscraping retry loop, get_main_content, get_paragraphs, get_headings,
     get_meta_data, get_internal_links, get_formatted_content)
  - src/backend/api/litewebagent/tools/save_file.py   (save_file)
  - src/litewebagent/webagent_utils_sync/tools/save_file.py   (save_file, sync variant)

HTML markup trees are modelled by an inductive `HNode` mirroring BeautifulSoup's
parsed-tag representation (tag name, attribute association list, multi-valued
class attribute, children in document order).  Strings are Lean `String`s and
all text operations are defined over `String.data` so that every definition is
executable and kernel-reducible.  The string model is scoped to ASCII text
(Python `str.lower`/`str.strip` agree with the model there).
-/

/-! ## String utilities (models of the Python string operations used) -/

/-- Model of Python `str.startswith`: prefix test on the character list. -/
def strStartsWith (s p : String) : Bool := p.data.isPrefixOf s.data

/-- Model of Python `str.endswith` for the single use site (a one-character
suffix `"\n"`): suffix test on the character list. -/
def strEndsWith (s p : String) : Bool := p.data.reverse.isPrefixOf s.data.reverse

/-- Model of Python `str.lower` (ASCII scope). -/
def strToLower (s : String) : String := ⟨s.data.map Char.toLower⟩

/-- Whitespace as stripped by Python `str.strip()` (ASCII scope). -/
def pyIsSpace (c : Char) : Bool := c = ' ' || c = '\n' || c = '\t' || c = '\r'

/-- Model of Python `str.strip()`: drop whitespace from both ends. -/
def strTrim (s : String) : String :=
  ⟨((s.data.dropWhile pyIsSpace).reverse.dropWhile pyIsSpace).reverse⟩

/-- Substring occurrence test over character lists (helper for `strContains`). -/
def containsAux (pat : List Char) : List Char → Bool
  | [] => pat.isEmpty
  | c :: cs => pat.isPrefixOf (c :: cs) || containsAux pat cs

/-- Model of Python `pat in s` substring containment. -/
def strContains (s pat : String) : Bool := containsAux pat.data s.data

/-- Split a character list on newline characters, Python `str.split("\n")`
semantics: `"a\nb\n"` yields `["a", "b", ""]`. -/
def splitLinesC : List Char → List (List Char)
  | [] => [[]]
  | c :: cs =>
    if c = '\n' then [] :: splitLinesC cs
    else
      match splitLinesC cs with
      | [] => [[c]]
      | l :: ls => (c :: l) :: ls

/-- The lines of a string, splitting on `"\n"` (Python `split("\n")`). -/
def strLines (s : String) : List String := (splitLinesC s.data).map (fun l => ⟨l⟩)

/-! ## URL model

Models `urllib.parse.urlparse` restricted to inputs of the shape
`scheme://host/rest` (no port and no userinfo, the only shapes the claims
need), and `urljoin` restricted to the call pattern of `get_internal_links`:
the base is an origin `scheme://host` and the joined reference starts with
`/`.  Python's `hostname` accessor lowercases the host; the model does too. -/

/-- Split a character list at the first occurrence of `"://"`, returning the
part before and the part after. -/
def splitSchemeAux : List Char → Option (List Char × List Char)
  | [] => none
  | c :: cs =>
    if c = ':' ∧ cs.take 2 = ['/', '/'] then some ([], cs.drop 2)
    else
      match splitSchemeAux cs with
      | none => none
      | some (a, b) => some (c :: a, b)

/-- Characters that may appear in the host component (the host ends at the
first `/`, `?` or `#`, as in `urlparse`'s netloc scan). -/
def hostChar (c : Char) : Bool := c ≠ '/' && c ≠ '?' && c ≠ '#'

/-- Model of `urlparse(url)` restricted to the two accessed fields: returns
`(scheme, hostname)` where `hostname` is lowercased, or `none` if the input
has no `://` separator (Python would then give scheme `''` and hostname
`None`, and the source's string concatenation would fail). -/
def parseUrl (url : String) : Option (String × String) :=
  match splitSchemeAux url.data with
  | none => none
  | some (sch, rest) => some (⟨sch⟩, ⟨(rest.takeWhile hostChar).map Char.toLower⟩)

/-- `urlparse(s).scheme` with Python's `''` fallback for unparsable input. -/
def schemeOf (s : String) : String :=
  match splitSchemeAux s.data with
  | some (a, _) => ⟨a⟩
  | none => ""

/-- `urlparse(s).hostname` (lowercased), with `""` standing in for `None`. -/
def hostOf (s : String) : String :=
  match splitSchemeAux s.data with
  | some (_, rest) => ⟨(rest.takeWhile hostChar).map Char.toLower⟩
  | none => ""

/-- Model of `urljoin(base, href)` for the source's call pattern: `base` is an
origin `scheme://host` and `href` starts with `/`.  A protocol-relative
`//...` reference keeps only the base's scheme; otherwise the root-relative
path is attached to the origin. -/
def urljoinRR (base href : String) : String :=
  if strStartsWith href "//" then schemeOf base ++ ":" ++ href
  else base ++ href

/-! ## Markup tree model (BeautifulSoup parsed tags) -/

/-- A parsed markup node: a text node, or an element with tag name, attribute
association list, class list (BeautifulSoup parses `class` as a multi-valued
attribute) and children in document order.  A whole document ("soup") is a
`List HNode` of root nodes. -/
inductive HNode where
  | text (s : String)
  | elem (tag : String) (attrs : List (String × String)) (classes : List String)
      (children : List HNode)

mutual
/-- BeautifulSoup `tag.get_text()`: concatenation of all descendant strings. -/
def getText : HNode → String
  | .text s => s
  | .elem _ _ _ cs => getTextList cs
/-- `get_text()` over a child list. -/
def getTextList : List HNode → String
  | [] => ""
  | c :: cs => getText c ++ getTextList cs
end

mutual
/-- BeautifulSoup `tag.get_text(strip=True)`: concatenation of the stripped
descendant strings. -/
def getTextStrip : HNode → String
  | .text s => strTrim s
  | .elem _ _ _ cs => getTextStripList cs
/-- `get_text(strip=True)` over a child list. -/
def getTextStripList : List HNode → String
  | [] => ""
  | c :: cs => getTextStrip c ++ getTextStripList cs
end

mutual
/-- All element (tag) nodes of a subtree in document order (preorder), the
order in which BeautifulSoup's `find_all` yields tags. -/
def allElems : HNode → List HNode
  | .text _ => []
  | .elem t a c cs => .elem t a c cs :: allElemsList cs
/-- Document-order elements of a node list. -/
def allElemsList : List HNode → List HNode
  | [] => []
  | c :: cs => allElems c ++ allElemsList cs
end

/-- The structural-noise tags decomposed by the pipeline
(`soup.select('aside, header, nav, footer')` + `decompose`). -/
def noiseTags : List String := ["aside", "header", "nav", "footer"]

mutual
/-- Effect of `element.decompose()` applied to every `aside`/`header`/`nav`/
`footer` element: the whole subtree rooted at such an element is removed. -/
def removeNoise : HNode → Option HNode
  | .text s => some (.text s)
  | .elem t a c cs =>
    if noiseTags.contains t then none
    else some (.elem t a c (removeNoiseList cs))
/-- Noise removal over a node list. -/
def removeNoiseList : List HNode → List HNode
  | [] => []
  | c :: cs =>
    match removeNoise c with
    | none => removeNoiseList cs
    | some c2 => c2 :: removeNoiseList cs
end

/-- Does the element carry attribute `k` with exact value `v`
(BeautifulSoup `soup.find(**{k: v})` match on a plain attribute)? -/
def attrIs (k v : String) : HNode → Bool
  | .elem _ a _ _ => a.lookup k == some v
  | .text _ => false

/-- Does the element carry CSS class `c` (BeautifulSoup class filter)? -/
def classHas (c : String) : HNode → Bool
  | .elem _ _ cls _ => cls.contains c
  | .text _ => false

/-- Does the node have tag name `t`? -/
def tagIs (t : String) : HNode → Bool
  | .elem tg _ _ _ => tg == t
  | .text _ => false

/-- BeautifulSoup `soup.find(...)`: first element in document order matching
the predicate. -/
def findElem (p : HNode → Bool) (roots : List HNode) : Option HNode :=
  (allElemsList roots).find? p

/-! ## StructuralExtractor views (webscraping.py lines 97-149) -/

/-- `get_paragraphs`: the raw text of every `<p>` element in document order. -/
def get_paragraphs (roots : List HNode) : List String :=
  ((allElemsList roots).filter (tagIs "p")).map getText

/-- `get_headings`: the raw text of every `<h1>`-`<h6>` element in document
order. -/
def get_headings (roots : List HNode) : List String :=
  ((allElemsList roots).filter (fun n =>
    tagIs "h1" n || tagIs "h2" n || tagIs "h3" n || tagIs "h4" n || tagIs "h5" n ||
      tagIs "h6" n)).map getText

/-- Python dict insertion with update-in-place semantics: an existing key keeps
its position and takes the new value, a new key is appended. -/
def dictInsert : List (String × String) → String → String → List (String × String)
  | [], k, v => [(k, v)]
  | (k2, v2) :: rest, k, v =>
    if k2 = k then (k, v) :: rest else (k2, v2) :: dictInsert rest k v

/-- Python `a or b` over optional strings: an empty string is falsy and falls
through to `b` (models `meta_tag.get('name') or meta_tag.get('property')`). -/
def pyOrStr (a b : Option String) : Option String :=
  match a with
  | some s => if s = "" then b else some s
  | none => b

/-- Is the optional string truthy (present and non-empty), Python `if x`? -/
def pyTruthy : Option String → Bool
  | some s => !(s == "")
  | none => false

/-- `get_meta_data`: for every `<meta>` tag with a truthy `name`-or-`property`
attribute and a truthy `content` attribute, map the former to the latter;
later duplicates overwrite earlier ones. -/
def get_meta_data (roots : List HNode) : List (String × String) :=
  (allElemsList roots).foldl
    (fun d n =>
      match n with
      | .elem "meta" a _ _ =>
        let name := pyOrStr (a.lookup "name") (a.lookup "property")
        let content := a.lookup "content"
        if pyTruthy name && pyTruthy content then
          dictInsert d (name.getD "") (content.getD "")
        else d
      | _ => d)
    []

/-- The `href` values of all anchors with an `href` attribute, in document
order (`soup.find_all('a', href=True)`). -/
def anchors (roots : List HNode) : List String :=
  (allElemsList roots).filterMap fun n =>
    match n with
    | .elem "a" a _ _ => a.lookup "href"
    | _ => none

/-- `get_internal_links(soup, url)`: build the origin
`scheme://hostname` from the page URL, then keep every href that starts with
`/` (resolved against the origin with `urljoin`) or that starts with the
origin string itself. -/
def get_internal_links (roots : List HNode) (url : String) : List String :=
  let base_url := schemeOf url ++ "://" ++ hostOf url
  (anchors roots).filterMap fun href =>
    if strStartsWith href "/" then some (urljoinRR base_url href)
    else if strStartsWith href base_url then some href
    else none

/-- The block-tag set of `get_formatted_content`. -/
def blockTags : List String := ["h1", "h2", "h3", "h4", "h5", "h6", "p", "ul", "ol"]

/-- The hard-coded cookie-banner class names ignored by
`get_formatted_content`. -/
def ignoreClasses : List String :=
  ["ch2-container", "ch2-theme-bar", "ch2-style-light", "ch2-dialog",
   "ch2-dialog-bottom", "ch2-visible", "ch2-settings", "ch2-settings-scan"]

/-- Is the node an element whose tag is in the block set (`child.name in
tag_names`; text nodes have no name)? -/
def isBlockElem : HNode → Bool
  | .elem t _ _ _ => blockTags.contains t
  | .text _ => false

/-- Does any of the element's own classes belong to the ignored set? -/
def hasIgnoredClass : HNode → Bool
  | .elem _ _ cls _ => cls.any (fun c => ignoreClasses.contains c)
  | .text _ => false

mutual
/-- Document-order element list annotated with "some ancestor carries an
ignored class" (the `tag.parents` check of `get_formatted_content`).  The
flag passed down to children additionally accounts for the current element's
own classes. -/
def elemsWithAnc (abad : Bool) : HNode → List (HNode × Bool)
  | .text _ => []
  | .elem t a cls cs =>
    (.elem t a cls cs, abad) ::
      elemsListWithAnc (abad || hasIgnoredClass (HNode.elem t a cls cs)) cs
/-- Annotated document-order elements of a node list. -/
def elemsListWithAnc (abad : Bool) : List HNode → List (HNode × Bool)
  | [] => []
  | c :: cs => elemsWithAnc abad c ++ elemsListWithAnc abad cs
end

/-- One iteration of the `for tag in soup.find_all(True)` loop of
`get_formatted_content`: the accumulator holds the emitted
(element, trimmed text) pairs and the `unique_text` set of lowered texts. -/
def fmtStep (acc : List (HNode × String) × List String) (eb : HNode × Bool) :
    List (HNode × String) × List String :=
  match eb with
  | (.text _, _) => acc
  | (.elem t a cls cs, abad) =>
    let node := HNode.elem t a cls cs
    let text := strTrim (getText node)
    let lower := strToLower text
    if blockTags.contains t && !(hasIgnoredClass node) && !abad &&
        !(cs.any isBlockElem) && !(text == "") && !(acc.2.contains lower) then
      (acc.1 ++ [(node, text)], acc.2 ++ [lower])
    else acc

/-- The emitted (element, trimmed text) pairs of `get_formatted_content`, in
emission order. -/
def fmtPairs (roots : List HNode) : List (HNode × String) :=
  ((elemsListWithAnc false roots).foldl fmtStep ([], [])).1

/-- `get_formatted_content`: each emitted block contributes `text ++ " \n"`,
concatenated in emission order. -/
def get_formatted_content (roots : List HNode) : String :=
  String.join ((fmtPairs roots).map (fun pr => pr.2 ++ " \n"))

/-! ## ContentRegionSelector (webscraping.py lines 64-94) -/

/-- The primary selector cascade of `get_main_content`, in order. -/
def mainSelectors : List (HNode → Bool) :=
  [attrIs "id" "main", attrIs "id" "content", classHas "main-content",
   classHas "main", attrIs "role" "main"]

/-- First tier of `get_main_content`: try each selector in order; a found
element whose stripped text is truthy and longer than 20 characters wins,
otherwise continue with the next selector. -/
def tryPrimary (roots : List HNode) : List (HNode → Bool) → Option String
  | [] => none
  | p :: rest =>
    match findElem p roots with
    | some el =>
      let t := getTextStrip el
      if t ≠ "" ∧ 20 < t.length then some t else tryPrimary roots rest
    | none => tryPrimary roots rest

/-- Third tier of `get_main_content`: scan `main`/`article`/`section`
elements in document order and return the first stripped text longer than
100 characters, truncated to 2000 characters. -/
def scanSections : List HNode → String
  | [] => ""
  | el :: rest =>
    let t := getTextStrip el
    if t ≠ "" ∧ 100 < t.length then ⟨t.data.take 2000⟩ else scanSections rest

/-- `get_main_content(soup)`: selector cascade, then `<main>`-or-`<article>`,
then the long-section fallback, else the empty string. -/
def get_main_content (roots : List HNode) : String :=
  match tryPrimary roots mainSelectors with
  | some t => t
  | none =>
    let fallback := scanSections ((allElemsList roots).filter
      (fun n => tagIs "main" n || tagIs "article" n || tagIs "section" n))
    match (findElem (tagIs "main") roots).orElse (fun _ => findElem (tagIs "article") roots) with
    | some el =>
      let t := getTextStrip el
      if t ≠ "" ∧ 20 < t.length then t else fallback
    | none => fallback

/-! ## Snapshot pipeline and retry loop (webscraping.py lines 10-61) -/

/-- The Snapshot record built by `webscraping` (the `content` dict). -/
structure Content where
  url : String
  title : String
  main_content : String
  paragraphs : List String
  headings : List String
  meta_data : List (String × String)
  internal_links : List String
  formatted_content : String
deriving DecidableEq

/-- The successful-attempt body of `webscraping` (lines 26-41): decompose the
structural-noise elements from the parsed soup, then build every view —
including `get_main_content` — from the post-removal tree. -/
def extractContent (url title : String) (roots : List HNode) : Content :=
  let soup := removeNoiseList roots
  { url := url
    title := title
    main_content := get_main_content soup
    paragraphs := get_paragraphs soup
    headings := get_headings soup
    meta_data := get_meta_data soup
    internal_links := get_internal_links soup url
    formatted_content := get_formatted_content soup }

/-- The minimal degraded Snapshot returned on a load timeout
(webscraping.py lines 47-56). -/
def degradedContent (url : String) : Content :=
  { url := url
    title := "timeout waiting for page"
    main_content := ""
    paragraphs := []
    headings := []
    meta_data := []
    internal_links := []
    formatted_content := "" }

/-- Outcome of one attempt of the retry loop, as observed by the code:
the network-idle wait timed out (`PlaywrightTimeoutError`), the page loaded
with a title / URL / parsed markup, or some other exception was raised. -/
inductive AttemptOutcome where
  | timeoutErr (url : String)
  | loaded (title : String) (url : String) (roots : List HNode)
  | failure (e : String)

/-- The Cloudflare-challenge test: `'cloudflare' in title.lower()`. -/
def cfDetect (title : String) : Bool := strContains (strToLower title) "cloudflare"

/-- The `for attempt in range(max_retries)` loop of `webscraping`, as a
recursion over the outcomes of the remaining attempts.  `.ok none` models the
Python fall-through `return None` after the loop; `.error e` models the
re-raise on the last attempt.  `rest.isEmpty` is exactly the source's
`attempt == max_retries - 1` test when the loop starts from a list of
`max_retries` outcomes. -/
def wsRun : List AttemptOutcome → Except String (Option Content)
  | [] => .ok none
  | o :: rest =>
    match o with
    | .timeoutErr url => .ok (some (degradedContent url))
    | .loaded title url roots =>
      if cfDetect title then wsRun rest
      else .ok (some (extractContent url title roots))
    | .failure e => if rest.isEmpty then .error e else wsRun rest

/-- `webscraping` with `max_retries = 3`: run the loop over the three
attempt outcomes. -/
def webscraping_model (a0 a1 a2 : AttemptOutcome) : Except String (Option Content) :=
  wsRun [a0, a1, a2]

/-! ## save_file models (save_file.py, both variants)

The generative backend call (`litellm.completion`) is abstracted as a
`BackendResult` input: either the text it returned or the exception it
raised.  The context-building phase (a provided `content` argument, or the
`webscraping` call when `content is None`, whose exceptions are not caught by
`save_file`) is abstracted as an `Except String String` input.  The
filesystem is an explicit association list of path contents, plus the set of
paths on which `os.makedirs`/`open` would raise an `IOError` (those calls are
not wrapped in any `try` in the source).  `os.path.expanduser` is the
identity on the already-expanded paths the model considers. -/

/-- Outcome of the abstracted `litellm.completion` call. -/
inductive BackendResult where
  | ok (text : String)
  | err (e : String)

/-- What a `save_file` call delivers to its caller: a returned dict
`{status, file_path, message?}`, or a propagated exception. -/
inductive SaveResult where
  | ret (status : String) (file_path : String) (message : Option String)
  | exn (e : String)
deriving DecidableEq

/-- Explicit filesystem state: file contents by path, and the paths on which
directory creation or opening for write raises. -/
structure FS where
  files : List (String × String)
  badPaths : List String
deriving DecidableEq

/-- `file_path or "log/agent_output.txt"`: Python `or` falls through on an
empty (falsy) path. -/
def defaultPath (p : String) : String := if p = "" then "log/agent_output.txt" else p

/-- The write step shared by both `save_file` variants (backend/api lines
168-173, sync lines 92-97): mode `"w"` truncates and writes the text
verbatim; mode `"a"` appends to the existing contents (an absent file starts
empty) and additionally appends `"\n"` when the text does not already end
with one. -/
def fsWrite (files : List (String × String)) (path text : String) (append : Bool) :
    List (String × String) :=
  let newContents :=
    if append then
      ((files.lookup path).getD "") ++ text ++
        (if strEndsWith text "\n" then "" else "\n")
    else text
  dictInsert files path newContents

/-- `save_file` of src/backend/api/litewebagent/tools/save_file.py from the
point where the context is settled: on a backend exception return an error
dict untouched; on a backend text that (after `strip()`) case-insensitively
starts with `"formatting failed"` return an error dict untouched; otherwise
create directories and write (modelled by `fsWrite`, raising on a bad path).
A context-phase exception (the unguarded `webscraping` call) propagates. -/
def save_file_api (ctx : Except String String) (file_path : String) (append : Bool)
    (backend : BackendResult) (fs : FS) : SaveResult × FS :=
  match ctx with
  | .error e => (.exn e, fs)
  | .ok _context =>
    let target := defaultPath file_path
    match backend with
    | .err e => (.ret "error" target (some ("formatting_failed: " ++ e)), fs)
    | .ok raw =>
      let final_text := strTrim raw
      if strStartsWith (strToLower final_text) "formatting failed" then
        (.ret "error" target (some final_text), fs)
      else if fs.badPaths.contains target then (.exn "IOError", fs)
      else
        (.ret "success" target none,
         { fs with files := fsWrite fs.files target final_text append })

/-- `save_file` of src/litewebagent/webagent_utils_sync/tools/save_file.py
from the point where the context is settled: identical to the backend/api
variant except that it has no guard on a returned text starting with
`"formatting failed"` — it writes whatever the backend returned. -/
def save_file_sync (ctx : Except String String) (file_path : String) (append : Bool)
    (backend : BackendResult) (fs : FS) : SaveResult × FS :=
  match ctx with
  | .error e => (.exn e, fs)
  | .ok _context =>
    let target := defaultPath file_path
    match backend with
    | .err e => (.ret "error" target (some ("formatting_failed: " ++ e)), fs)
    | .ok raw =>
      let final_text := strTrim raw
      if fs.badPaths.contains target then (.exn "IOError", fs)
      else
        (.ret "success" target none,
         { fs with files := fsWrite fs.files target final_text append })

/-! ## Generic helper lemmas -/

/-- A prefix list is a prefix (in the Boolean sense) of itself extended. -/
theorem isPrefixOf_append (p t : List Char) : p.isPrefixOf (p ++ t) = true := by
  induction p with
  | nil => simp [List.isPrefixOf]
  | cons c cs ih => simp [List.isPrefixOf, ih]

/-- A Boolean prefix witness splits the longer list. -/
theorem isPrefixOf_split {p l : List Char} (h : p.isPrefixOf l = true) :
    ∃ t, l = p ++ t := by
  induction p generalizing l with
  | nil => exact ⟨l, rfl⟩
  | cons c cs ih =>
    cases l with
    | nil => simp [List.isPrefixOf] at h
    | cons x xs =>
      simp only [List.isPrefixOf, Bool.and_eq_true, beq_iff_eq] at h
      obtain ⟨hcx, hrest⟩ := h
      obtain ⟨t, ht⟩ := ih hrest
      exact ⟨t, by simp [ht, hcx]⟩

/-- A successful scheme split reconstructs the input. -/
theorem splitSchemeAux_shape : ∀ (l a b : List Char),
    splitSchemeAux l = some (a, b) → l = a ++ ':' :: '/' :: '/' :: b := by
  intro l
  induction l with
  | nil => intro a b h; simp [splitSchemeAux] at h
  | cons c cs ih =>
    intro a b h
    unfold splitSchemeAux at h
    split at h
    · rename_i hcond
      obtain ⟨hc, htake⟩ := hcond
      cases h
      subst hc
      have hsplit := cs.take_append_drop 2
      rw [htake] at hsplit
      simp only [List.nil_append]
      exact congrArg (fun z => ':' :: z) hsplit.symm
    · cases hrec : splitSchemeAux cs with
      | none => rw [hrec] at h; simp at h
      | some p =>
        obtain ⟨a2, b2⟩ := p
        rw [hrec] at h
        simp only [Option.some.injEq, Prod.mk.injEq] at h
        obtain ⟨ha, hb⟩ := h
        subst ha; subst hb
        simp [ih a2 b2 hrec]

/-- The first two characters after a scheme part do not depend on what follows
the `"://"` separator. -/
theorem take2_stable (a z1 z2 : List Char) :
    (a ++ ':' :: '/' :: '/' :: z1).take 2 = (a ++ ':' :: '/' :: '/' :: z2).take 2 := by
  match a with
  | [] => rfl
  | [x] => rfl
  | x :: y :: t => simp [List.take]

/-- Re-splitting a scheme part glued to a fresh remainder finds the same
scheme part. -/
theorem splitSchemeAux_replay : ∀ (l a b c : List Char), splitSchemeAux l = some (a, b) →
    splitSchemeAux (a ++ ':' :: '/' :: '/' :: c) = some (a, c) := by
  intro l
  induction l with
  | nil => intro a b c h; simp [splitSchemeAux] at h
  | cons x xs ih =>
    intro a b c h
    unfold splitSchemeAux at h
    split at h
    · rename_i hcond
      obtain ⟨hx, _⟩ := hcond
      cases h
      subst hx
      simp only [List.nil_append]
      unfold splitSchemeAux
      rw [if_pos ⟨rfl, rfl⟩]
      rfl
    · rename_i hcondneg
      cases hrec : splitSchemeAux xs with
      | none => rw [hrec] at h; simp at h
      | some p =>
        obtain ⟨a2, b2⟩ := p
        rw [hrec] at h
        simp only [Option.some.injEq, Prod.mk.injEq] at h
        obtain ⟨ha, hb⟩ := h
        subst ha; subst hb
        simp only [List.cons_append]
        unfold splitSchemeAux
        rw [if_neg, ih a2 b2 c hrec]
        intro hcond2
        obtain ⟨hx2, ht2⟩ := hcond2
        apply hcondneg
        refine ⟨hx2, ?_⟩
        rw [splitSchemeAux_shape xs a2 b2 hrec, take2_stable a2 b2 c]
        exact ht2

/-- A successful `parseUrl` determines the `scheme` and `hostname`
accessors. -/
theorem parseUrl_components (url sch host : String) (h : parseUrl url = some (sch, host)) :
    schemeOf url = sch ∧ hostOf url = host := by
  unfold parseUrl at h
  cases hsplit : splitSchemeAux url.data with
  | none => rw [hsplit] at h; simp at h
  | some p =>
    obtain ⟨a, rest⟩ := p
    rw [hsplit] at h
    simp only [Option.some.injEq, Prod.mk.injEq] at h
    obtain ⟨h1, h2⟩ := h
    constructor
    · unfold schemeOf; rw [hsplit]; exact h1
    · unfold hostOf; rw [hsplit]; exact h2

/-- The separator string as a character list. -/
theorem sepData3 : ("://" : String).data = [':', '/', '/'] := rfl

/-- The characters of an origin string `scheme ++ "://" ++ host`. -/
theorem data_origin (sch host : String) :
    (sch ++ "://" ++ host).data = sch.data ++ ':' :: '/' :: '/' :: host.data := by
  simp [String.data_append, sepData3]

/-- The scheme recovered from an origin built out of a parsed URL's scheme and
host is that scheme. -/
theorem schemeOf_origin (url sch host : String) (h : parseUrl url = some (sch, host)) :
    schemeOf (sch ++ "://" ++ host) = sch := by
  unfold parseUrl at h
  cases hsplit : splitSchemeAux url.data with
  | none => rw [hsplit] at h; simp at h
  | some p =>
    obtain ⟨a, rest⟩ := p
    rw [hsplit] at h
    simp only [Option.some.injEq, Prod.mk.injEq] at h
    obtain ⟨h1, h2⟩ := h
    have ha : sch.data = a := by rw [← h1]
    unfold schemeOf
    rw [data_origin, ha, splitSchemeAux_replay url.data a rest host.data hsplit]
    rw [← h1]

/-- Invariant preservation lifts through a left fold. -/
theorem foldl_preserve {α β : Type} (P : β → Prop) (f : β → α → β)
    (hstep : ∀ b a, P b → P (f b a)) :
    ∀ (l : List α) (b : β), P b → P (l.foldl f b) := by
  intro l
  induction l with
  | nil => intro b h; exact h
  | cons x xs ih => intro b h; exact ih _ (hstep b x h)

/-- Looking up the just-inserted key of a Python-style dict yields the new
value. -/
theorem lookup_dictInsert (d : List (String × String)) (k v : String) :
    (dictInsert d k v).lookup k = some v := by
  induction d with
  | nil => simp [dictInsert, List.lookup]
  | cons kv rest ih =>
    obtain ⟨k2, v2⟩ := kv
    unfold dictInsert
    by_cases h : k2 = k
    · rw [if_pos h]
      simp [List.lookup]
    · rw [if_neg h]
      have hbeq : (k == k2) = false := by
        simp only [beq_eq_false_iff_ne]
        exact fun he => h he.symm
      simp only [List.lookup, hbeq]
      exact ih

/-- Invariant of the `get_formatted_content` loop: every emitted block's
lowered text is registered in the `unique_text` accumulator, and the emitted
lowered texts are pairwise distinct. -/
def fmtInv (acc : List (HNode × String) × List String) : Prop :=
  (∀ pr ∈ acc.1, strToLower pr.2 ∈ acc.2) ∧
    ((acc.1.map (fun pr => strToLower pr.2)).Nodup)

/-- One `fmtStep` iteration preserves `fmtInv`: a block is emitted only when
its lowered text is not yet registered, and it is registered on emission. -/
theorem fmtStep_inv (acc : List (HNode × String) × List String) (eb : HNode × Bool)
    (h : fmtInv acc) : fmtInv (fmtStep acc eb) := by
  obtain ⟨h1, h2⟩ := h
  obtain ⟨n, abad⟩ := eb
  cases n with
  | text s => exact ⟨h1, h2⟩
  | elem t a cls cs =>
    unfold fmtStep
    dsimp only
    split
    · rename_i hcond
      simp only [Bool.and_eq_true, Bool.not_eq_true'] at hcond
      obtain ⟨⟨⟨⟨⟨hblock, hcls⟩, habad⟩, hchild⟩, hne⟩, hfresh⟩ := hcond
      have hnot : strToLower (strTrim (getText (HNode.elem t a cls cs))) ∉ acc.2 := by
        intro hm
        have he : acc.2.elem (strToLower (strTrim (getText (HNode.elem t a cls cs)))) = true :=
          List.elem_iff.mpr hm
        have hf : acc.2.elem (strToLower (strTrim (getText (HNode.elem t a cls cs)))) = false :=
          hfresh
        rw [he] at hf
        exact absurd hf (by simp)
      constructor
      · intro pr hpr
        rw [List.mem_append] at hpr
        cases hpr with
        | inl hin => exact List.mem_append_left _ (h1 pr hin)
        | inr hin =>
          simp only [List.mem_singleton] at hin
          subst hin
          simp
      · rw [List.map_append, List.nodup_append]
        refine ⟨h2, by simp, ?_⟩
        intro x hx hy
        simp only [List.map_cons, List.map_nil, List.mem_singleton] at hy
        subst hy
        rw [List.mem_map] at hx
        obtain ⟨pr, hpr, hfx⟩ := hx
        have hmem := h1 pr hpr
        rw [hfx] at hmem
        exact hnot hmem
    · exact ⟨h1, h2⟩

/-! ## Claim C1 — internalLinks host invariant -/

/-- A page with a single protocol-relative anchor `//evil.com/x`. -/
def demoC1 : HNode := .elem "a" [("href", "//evil.com/x")] [] []

/-- C1 counterexample: on the page `https://example.com/page`, the anchor
`href="//evil.com/x"` starts with `/`, so `get_internal_links` resolves it
with `urljoin` — producing `https://evil.com/x`, whose host `evil.com`
differs from the page host `example.com`.  The claim that every entry of
`internalLinks` shares the page's host is therefore false. -/
theorem C1_counterexample :
    get_internal_links [demoC1] "https://example.com/page" = ["https://evil.com/x"] ∧
    hostOf "https://evil.com/x" = "evil.com" ∧
    hostOf "https://example.com/page" = "example.com" ∧
    hostOf "https://evil.com/x" ≠ hostOf "https://example.com/page" := by
  refine ⟨by decide, by decide, by decide, by decide⟩

/-- C1 (amended): for every markup tree and every parsable page URL, every
string in `internalLinks` is an absolute URL beginning with the page's
scheme followed by `"://"`.  (Host equality does not hold in general:
protocol-relative hrefs keep only the scheme, and the origin-prefix test
admits hrefs that merely extend the origin string.) -/
theorem C1_internal_links_scheme : ∀ (roots : List HNode) (url sch host : String),
    parseUrl url = some (sch, host) →
    ∀ link ∈ get_internal_links roots url,
      strStartsWith link (sch ++ "://") = true := by
  intro roots url sch host h link hlink
  obtain ⟨hsch, hhost⟩ := parseUrl_components url sch host h
  unfold get_internal_links at hlink
  rw [hsch, hhost, List.mem_filterMap] at hlink
  obtain ⟨href, _, hf⟩ := hlink
  have e1 : (sch ++ "://").data = sch.data ++ [':', '/', '/'] := by
    simp [String.data_append, sepData3]
  by_cases h1 : strStartsWith href "/" = true
  · rw [if_pos h1] at hf
    simp only [Option.some.injEq] at hf
    subst hf
    unfold urljoinRR
    by_cases h2 : strStartsWith href "//" = true
    · rw [if_pos h2, schemeOf_origin url sch host h]
      have h2b : ("//" : String).data.isPrefixOf href.data = true := h2
      obtain ⟨t, ht⟩ := isPrefixOf_split h2b
      show (sch ++ "://").data.isPrefixOf (sch ++ ":" ++ href).data = true
      have e2 : (sch ++ ":" ++ href).data = (sch.data ++ [':', '/', '/']) ++ t := by
        simp [String.data_append, show (":" : String).data = [':'] from rfl, ht]
      rw [e1, e2]
      exact isPrefixOf_append _ _
    · rw [if_neg h2]
      show (sch ++ "://").data.isPrefixOf ((sch ++ "://" ++ host) ++ href).data = true
      have e2 : ((sch ++ "://" ++ host) ++ href).data
          = (sch.data ++ [':', '/', '/']) ++ (host.data ++ href.data) := by
        simp [String.data_append, sepData3]
      rw [e1, e2]
      exact isPrefixOf_append _ _
  · rw [if_neg h1] at hf
    by_cases h2 : strStartsWith href (sch ++ "://" ++ host) = true
    · rw [if_pos h2] at hf
      simp only [Option.some.injEq] at hf
      subst hf
      have h2b : (sch ++ "://" ++ host).data.isPrefixOf href.data = true := h2
      obtain ⟨t, ht⟩ := isPrefixOf_split h2b
      show (sch ++ "://").data.isPrefixOf href.data = true
      have e2 : href.data = (sch.data ++ [':', '/', '/']) ++ (host.data ++ t) := by
        rw [ht, data_origin]
        simp
      rw [e1, e2]
      exact isPrefixOf_append _ _
    · rw [if_neg h2] at hf
      simp at hf

/-- A page with a single root-relative anchor `/x`. -/
def demoC1w : HNode := .elem "a" [("href", "/x")] [] []

/-- Witness for C1's amended theorem at a concrete page and link. -/
theorem C1_internal_links_scheme_witness :
    parseUrl "https://example.com/page" = some ("https", "example.com") ∧
    strStartsWith "https://example.com/x" ("https" ++ "://") = true := by
  refine ⟨by decide, ?_⟩
  exact C1_internal_links_scheme [demoC1w] "https://example.com/page" "https" "example.com"
    (by decide) "https://example.com/x" (by decide)

/-! ## Claim C2 — formattedContent line-level de-duplication -/

/-- A single paragraph whose text contains an internal newline. -/
def demoC2 : HNode := .elem "p" [] [] [.text "b \nb"]

/-- C2 counterexample: the block text `"b \nb"` is emitted once (block-level
de-duplication), but the newline-joined output `"b \nb \n"` then contains the
line `"b "` twice, so the output has two case-insensitively identical
lines. -/
theorem C2_counterexample :
    ¬ ((strLines (get_formatted_content [demoC2])).map strToLower).Nodup := by decide

/-- C2 (amended): de-duplication in `get_formatted_content` is block-level,
not line-level: for every markup tree, the emitted text blocks are pairwise
case-insensitively distinct (and `formattedContent` is exactly the
concatenation of those blocks, each followed by `" \n"`). -/
theorem C2_blocks_nodup : ∀ roots : List HNode,
    ((fmtPairs roots).map (fun pr => strToLower pr.2)).Nodup ∧
    get_formatted_content roots
      = String.join ((fmtPairs roots).map (fun pr => pr.2 ++ " \n")) := by
  intro roots
  refine ⟨?_, rfl⟩
  have h := foldl_preserve fmtInv fmtStep fmtStep_inv (elemsListWithAnc false roots)
    ([], []) ⟨by simp, by simp⟩
  exact h.2

/-! ## Claim C3 — selector evaluation order -/

/-- A `header` wrapping a `div id="main"` with more than 20 characters of
text: noise removal deletes the whole `header`, including the `main`
region. -/
def demoC3 : HNode :=
  .elem "header" [] [] [.elem "div" [("id", "main")] [] [.text "This is the main content!!"]]

/-- C3 counterexample: the pipeline decomposes `aside`/`header`/`nav`/
`footer` **before** calling `get_main_content` (webscraping.py lines 29-35),
so on `demoC3` the pipeline's `main_content` is empty while
`get_main_content` on the pre-removal tree finds the `id="main"` region.
The claim that the selector is evaluated on the pre-removal tree is false. -/
theorem C3_counterexample :
    (extractContent "https://example.com/page" "t" [demoC3]).main_content
      ≠ get_main_content [demoC3] := by decide

/-- C3 (amended): `get_main_content` — like every other view — is computed
from the post-removal tree, and the two orderings genuinely differ on some
tree. -/
theorem C3_selector_post_removal : ∀ (url title : String) (roots : List HNode),
    (extractContent url title roots).main_content = get_main_content (removeNoiseList roots) ∧
    (extractContent url title roots).formatted_content
      = get_formatted_content (removeNoiseList roots) ∧
    ∃ r : List HNode, get_main_content (removeNoiseList r) ≠ get_main_content r := by
  intro url title roots
  exact ⟨rfl, rfl, [demoC3], by decide⟩

/-! ## Claim C4 — leaf-block descendant check -/

/-- Does the element have a descendant element (at any depth) bearing a
block tag? -/
def hasBlockDesc : HNode → Bool
  | .elem _ _ _ cs => (allElemsList cs).any isBlockElem
  | .text _ => false

/-- Does the element have no direct child element bearing a block tag
(the `tag.children` test actually performed by the source)? -/
def noBlockChild : HNode → Bool
  | .elem _ _ _ cs => !(cs.any isBlockElem)
  | .text _ => true

/-- A `ul` whose block-tagged `p` descendants are hidden behind a `div`:
the direct-children test does not see them. -/
def demoC4 : HNode :=
  .elem "ul" [] [] [.elem "div" [] [] [.elem "p" [] [] [.text "A"], .elem "p" [] [] [.text "B"]]]

/-- C4 counterexample: on `demoC4` the `ul` is emitted as a block
(`get_formatted_content` checks only direct children) even though it has
block-tagged `p` descendants; the claim that no emitted block has a
block-tagged descendant is false. -/
theorem C4_counterexample :
    ((fmtPairs [demoC4]).any fun pr => hasBlockDesc pr.1) = true := by decide

/-- One `fmtStep` iteration only emits elements with no block-tagged direct
child. -/
theorem fmtStep_nbc (acc : List (HNode × String) × List String) (eb : HNode × Bool)
    (h : ∀ pr ∈ acc.1, noBlockChild pr.1 = true) :
    ∀ pr ∈ (fmtStep acc eb).1, noBlockChild pr.1 = true := by
  obtain ⟨n, abad⟩ := eb
  cases n with
  | text s => exact h
  | elem t a cls cs =>
    unfold fmtStep
    dsimp only
    split
    · rename_i hcond
      simp only [Bool.and_eq_true, Bool.not_eq_true'] at hcond
      obtain ⟨⟨⟨⟨⟨hblock, hcls⟩, habad⟩, hchild⟩, hne⟩, hfresh⟩ := hcond
      intro pr hpr
      rw [List.mem_append] at hpr
      cases hpr with
      | inl hin => exact h pr hin
      | inr hin =>
        simp only [List.mem_singleton] at hin
        subst hin
        simp [noBlockChild, hchild]
    · exact h

/-- C4 (amended): an element contributes a text block only if none of its
**direct children** bears a block tag (deeper descendants may). -/
theorem C4_no_block_child : ∀ roots : List HNode,
    (fmtPairs roots).all (fun pr => noBlockChild pr.1) = true := by
  intro roots
  rw [List.all_eq_true]
  exact foldl_preserve (fun acc => ∀ pr ∈ acc.1, noBlockChild pr.1 = true)
    fmtStep fmtStep_nbc (elemsListWithAnc false roots) ([], []) (by simp)

/-! ## Claim C5 — backend exception leaves the filesystem untouched -/

/-- C5: in both `save_file` variants, a raised backend call yields a
`status="error"` result whose message carries the failure cause
(`"formatting_failed: " ++ cause`), and the filesystem state — files and
directories alike — is returned unchanged: no write occurs. -/
theorem C5_backend_error_no_write : ∀ (s fp : String) (ap : Bool) (e : String) (fs : FS),
    save_file_api (.ok s) fp ap (.err e) fs
        = (.ret "error" (defaultPath fp) (some ("formatting_failed: " ++ e)), fs) ∧
      save_file_sync (.ok s) fp ap (.err e) fs
        = (.ret "error" (defaultPath fp) (some ("formatting_failed: " ++ e)), fs) := by
  intro s fp ap e fs
  exact ⟨rfl, rfl⟩

/-! ## Claim C6 — in-band "formatting failed" guard -/

/-- C6 counterexample: the sync variant has no guard on a backend text that
begins with `"formatting failed"`: it persists the in-band failure string
and reports success. -/
theorem C6_counterexample :
    save_file_sync (.ok "page context") "f.txt" false
        (.ok "Formatting failed: model could not produce output") ⟨[], []⟩
      = (.ret "success" "f.txt" none,
         ⟨[("f.txt", "Formatting failed: model could not produce output")], []⟩) := by decide

/-- C6 (amended): in the backend/api `save_file`, a backend text that (after
stripping) case-insensitively begins with `"formatting failed"` yields an
error result carrying that text, and the filesystem is unchanged; the sync
variant lacks this guard. -/
theorem C6_soft_error_guard : ∀ (s fp : String) (ap : Bool) (t : String) (fs : FS),
    strStartsWith (strToLower (strTrim t)) "formatting failed" = true →
    save_file_api (.ok s) fp ap (.ok t) fs
      = (.ret "error" (defaultPath fp) (some (strTrim t)), fs) := by
  intro s fp ap t fs h
  unfold save_file_api
  dsimp only
  rw [if_pos h]

/-- Witness for C6's amended theorem at a concrete in-band failure text. -/
theorem C6_soft_error_guard_witness :
    strStartsWith (strToLower (strTrim "Formatting Failed: boom")) "formatting failed" = true ∧
    save_file_api (.ok "page context") "g.txt" false (.ok "Formatting Failed: boom") ⟨[], []⟩
      = (.ret "error" "g.txt" (some "Formatting Failed: boom"), ⟨[], []⟩) := by
  refine ⟨by decide, ?_⟩
  exact C6_soft_error_guard "page context" "g.txt" false "Formatting Failed: boom" ⟨[], []⟩
    (by decide)

/-! ## Claim C7 — return contract of the top-level save operation -/

/-- Is the result a returned record with status `"success"` or `"error"`
(rather than a propagated exception)? -/
def isStructuredResult : SaveResult → Bool
  | .ret st _ _ => st == "success" || st == "error"
  | .exn _ => false

/-- C7 counterexample: when opening the target path raises (the write is not
inside any `try`), `save_file` propagates the exception instead of returning
a structured record — the claim that no exception crosses the boundary is
false. -/
theorem C7_counterexample :
    (save_file_api (.ok "page context") "bad.txt" false (.ok "hello") ⟨[], ["bad.txt"]⟩).1
      = .exn "IOError" := by decide

/-- C7 (amended): when the context phase succeeds and the target path is
writable, both `save_file` variants return a structured
`{status: success | error}` record; I/O failures during directory creation
or writing (and context-phase extraction failures) are the exceptions that
propagate. -/
theorem C7_structured_result : ∀ (s fp : String) (ap : Bool) (b : BackendResult) (fs : FS),
    fs.badPaths.contains (defaultPath fp) = false →
    isStructuredResult (save_file_api (.ok s) fp ap b fs).1 = true ∧
    isStructuredResult (save_file_sync (.ok s) fp ap b fs).1 = true := by
  intro s fp ap b fs h
  cases b with
  | err e => exact ⟨rfl, rfl⟩
  | ok raw =>
    constructor
    · unfold save_file_api
      dsimp only
      split
      · rfl
      · rw [if_neg (by rw [h]; exact Bool.false_ne_true)]
        rfl
    · unfold save_file_sync
      dsimp only
      rw [if_neg (by rw [h]; exact Bool.false_ne_true)]
      rfl

/-- Witness for C7's amended theorem at a concrete writable path. -/
theorem C7_structured_result_witness :
    (⟨[], []⟩ : FS).badPaths.contains (defaultPath "f.txt") = false ∧
    isStructuredResult (save_file_api (.ok "c") "f.txt" false (.ok "hello") ⟨[], []⟩).1 = true ∧
    isStructuredResult (save_file_sync (.ok "c") "f.txt" false (.ok "hello") ⟨[], []⟩).1 = true := by
  refine ⟨by decide, ?_⟩
  exact C7_structured_result "c" "f.txt" false (.ok "hello") ⟨[], []⟩ (by decide)

/-! ## Claim C8 — timeout returns a degraded Snapshot immediately -/

/-- C8: whenever the network-idle wait of the current attempt times out,
the loop immediately returns the degraded Snapshot — independently of how
many attempts remain (`rest` is arbitrary, so no further attempt is
consumed) — and that Snapshot has title `"timeout waiting for page"`, empty
main content, empty collections and empty formatted content. -/
theorem C8_timeout_degraded : ∀ (url : String) (rest : List AttemptOutcome)
    (a1 a2 : AttemptOutcome),
    wsRun (.timeoutErr url :: rest) = .ok (some (degradedContent url)) ∧
    webscraping_model (.timeoutErr url) a1 a2 = .ok (some (degradedContent url)) ∧
    (degradedContent url).title = "timeout waiting for page" ∧
    (degradedContent url).main_content = "" ∧
    (degradedContent url).paragraphs = [] ∧
    (degradedContent url).headings = [] ∧
    (degradedContent url).meta_data = [] ∧
    (degradedContent url).internal_links = [] ∧
    (degradedContent url).formatted_content = "" := by
  intro url rest a1 a2
  exact ⟨rfl, rfl, rfl, rfl, rfl, rfl, rfl, rfl, rfl⟩

/-! ## Claim C9 — FileSink round trip -/

/-- C9: overwrite mode writes the text verbatim (reading back yields exactly
it); append mode appends the text plus a trailing newline exactly when the
text does not already end in one; and from an absent or empty file, two
appends of `"a"` then `"b"` yield `"a\nb\n"`. -/
theorem C9_file_write_round_trip : ∀ (files : List (String × String)) (path T U : String),
    (fsWrite files path T false).lookup path = some T ∧
    (fsWrite files path U true).lookup path
      = some (((files.lookup path).getD "") ++ U ++
          (if strEndsWith U "\n" then "" else "\n")) ∧
    (files.lookup path = none ∨ files.lookup path = some "" →
      (fsWrite (fsWrite files path "a" true) path "b" true).lookup path = some "a\nb\n") := by
  intro files path T U
  refine ⟨?_, ?_, ?_⟩
  · unfold fsWrite
    simp only [if_neg Bool.false_ne_true]
    exact lookup_dictInsert files path T
  · unfold fsWrite
    simp only [if_pos rfl]
    exact lookup_dictInsert files path _
  · intro h
    have hold : (files.lookup path).getD "" = "" := by
      cases h with
      | inl h0 => rw [h0]; rfl
      | inr h0 => rw [h0]; rfl
    unfold fsWrite
    simp only [if_pos rfl]
    rw [lookup_dictInsert, hold]
    rw [show strEndsWith "a" "\n" = false from rfl,
        show strEndsWith "b" "\n" = false from rfl]
    rw [lookup_dictInsert]
    rfl

/-- Witness for C9 at the default path, starting from an empty filesystem. -/
theorem C9_file_write_round_trip_witness :
    (fsWrite [] "log/agent_output.txt" "xyz" false).lookup "log/agent_output.txt" = some "xyz" ∧
    (fsWrite (fsWrite [] "log/agent_output.txt" "a" true) "log/agent_output.txt" "b" true).lookup
      "log/agent_output.txt" = some "a\nb\n" := by
  refine ⟨(C9_file_write_round_trip [] "log/agent_output.txt" "xyz" "u").1, ?_⟩
  exact (C9_file_write_round_trip [] "log/agent_output.txt" "xyz" "u").2.2 (Or.inl rfl)

/-! ## Claim C10 — all-Cloudflare exhaustion returns None -/

/-- C10: if the page title contains `"cloudflare"` (case-insensitively) on
all three bounded attempts, the retry loop exhausts through the challenge
branch and `webscraping` falls off the loop, returning Python `None`
(`.ok none`): no Snapshot and no raised error. -/
theorem C10_cloudflare_exhaustion : ∀ (t0 u0 : String) (r0 : List HNode)
    (t1 u1 : String) (r1 : List HNode) (t2 u2 : String) (r2 : List HNode),
    cfDetect t0 = true → cfDetect t1 = true → cfDetect t2 = true →
    webscraping_model (.loaded t0 u0 r0) (.loaded t1 u1 r1) (.loaded t2 u2 r2) = .ok none := by
  intro t0 u0 r0 t1 u1 r1 t2 u2 r2 h0 h1 h2
  simp [webscraping_model, wsRun, h0, h1, h2]

/-- Witness for C10 at a concrete Cloudflare interstitial title. -/
theorem C10_cloudflare_exhaustion_witness :
    cfDetect "Attention Required! | Cloudflare" = true ∧
    webscraping_model (.loaded "Attention Required! | Cloudflare" "https://a.com/" [])
        (.loaded "Attention Required! | Cloudflare" "https://a.com/" [])
        (.loaded "Attention Required! | Cloudflare" "https://a.com/" []) = .ok none := by
  refine ⟨by decide, ?_⟩
  exact C10_cloudflare_exhaustion "Attention Required! | Cloudflare" "https://a.com/" []
    "Attention Required! | Cloudflare" "https://a.com/" []
    "Attention Required! | Cloudflare" "https://a.com/" [] (by decide) (by decide) (by decide)
